/-
Verification of the chat-relay backend (FastAPI + SQLite history store).

The embedding follows the two source files:
  * `backend/db.py`   — the history store (`save_message`, `get_history`,
    `clear_history`) over a SQLite table `messages(id AUTOINCREMENT, role,
    content, timestamp)`;
  * `backend/main.py` — the `/chat` handler (persist user message, build a
    windowed context, call the Ollama inference service, persist the reply)
    and the `/history` endpoint.

SQL semantics that matter here: `SELECT ... ORDER BY id DESC LIMIT ?` sorts
by the auto-increment id descending and, per SQLite, a *negative* LIMIT
value means "no limit" (all rows), while `LIMIT 0` yields no rows.  The
Python code then reverses the fetched rows, so the function returns
oldest-first.
-/
import Mathlib

namespace ChatRelay

/-- One row of the `messages` table: auto-increment `id`, `role`, `content`
and the insertion `timestamp` (advisory only; ordering always uses `id`). -/
structure Row where
  id : Nat
  role : String
  content : String
  timestamp : Nat
deriving Repr, DecidableEq

/-- The SQLite store: the rows in insertion order plus the next
auto-increment id (AUTOINCREMENT starts at 1 and never reuses ids). -/
structure Store where
  rows : List Row
  nextId : Nat
deriving Repr, DecidableEq

/-- The freshly initialised store (`init_db` on an empty database). -/
def emptyStore : Store := ⟨[], 1⟩

/-- `db.save_message(role, content)`: INSERT one row; the id is assigned by
AUTOINCREMENT and the timestamp by the column default (`ts`). -/
def save_message (role content : String) (ts : Nat) (s : Store) : Store :=
  ⟨s.rows ++ [⟨s.nextId, role, content, ts⟩], s.nextId + 1⟩

/-- Insert a row into a list kept in descending-id order (helper for the
`ORDER BY id DESC` clause). -/
def insertDesc (r : Row) : List Row → List Row
  | [] => [r]
  | x :: xs => if x.id ≤ r.id then r :: x :: xs else x :: insertDesc r xs

/-- `ORDER BY id DESC`: sort the table rows by id, descending. -/
def sortDesc (rows : List Row) : List Row :=
  rows.foldr insertDesc []

/-- SQLite `LIMIT`: a negative bound means no limit; otherwise keep the
first `limit` rows of the ordered result. -/
def sqliteLimit (limit : Int) (rows : List Row) : List Row :=
  if limit < 0 then rows else rows.take limit.toNat

/-- `db.get_history(limit)`: `SELECT role, content, timestamp FROM messages
ORDER BY id DESC LIMIT ?`, then `reversed(rows)` — so oldest-first. -/
def get_history (s : Store) (limit : Int) : List Row :=
  (sqliteLimit limit (sortDesc s.rows)).reverse

/-- `db.clear_history()`: `DELETE FROM messages` (AUTOINCREMENT ids are not
reused, so `nextId` is kept). -/
def clear_history (s : Store) : Store := ⟨[], s.nextId⟩

/-- The `GET /history` endpoint: calls `db.get_history(limit)` and wraps it;
a storage failure becomes a 500 error. -/
def history_endpoint (dbFails : Bool) (s : Store) (limit : Int) :
    Except Nat (List Row) :=
  if dbFails then .error 500 else .ok (get_history s limit)

/-- A store built by a sequence of `save_message` calls from the empty
store; each entry is (role, content, timestamp). -/
def mkStore (entries : List (String × String × Nat)) : Store :=
  entries.foldl (fun s e => save_message e.1 e.2.1 e.2.2 s) emptyStore

/-- Store well-formedness: ids strictly increase along insertion order and
stay below the next auto-increment id. -/
def StoreWF (s : Store) : Prop :=
  s.rows.Pairwise (fun a b => a.id < b.id) ∧ ∀ r ∈ s.rows, r.id < s.nextId

theorem save_message_wf {s : Store} (h : StoreWF s) (role content : String)
    (ts : Nat) : StoreWF (save_message role content ts s) := by
  obtain ⟨hp, hb⟩ := h
  constructor
  · refine List.pairwise_append.2 ⟨hp, List.pairwise_singleton _ _, ?_⟩
    intro a ha b hb'
    simp only [List.mem_singleton] at hb'
    subst hb'
    exact hb a ha
  · intro r hr
    rcases List.mem_append.1 hr with h1 | h2
    · exact Nat.lt_succ_of_lt (hb r h1)
    · simp only [List.mem_singleton] at h2
      subst h2
      exact Nat.lt_succ_self _

theorem mkStore_wf (entries : List (String × String × Nat)) :
    StoreWF (mkStore entries) := by
  suffices h : ∀ s, StoreWF s →
      StoreWF (entries.foldl (fun s e => save_message e.1 e.2.1 e.2.2 s) s) by
    refine h emptyStore ⟨List.Pairwise.nil, ?_⟩
    intro r hr
    simp [emptyStore] at hr
  induction entries with
  | nil => intro s hs; exact hs
  | cons e rest ih =>
      intro s hs
      exact ih _ (save_message_wf hs e.1 e.2.1 e.2.2)

theorem insertDesc_of_lt {r : Row} {l : List Row}
    (h : ∀ y ∈ l, r.id < y.id) : insertDesc r l = l ++ [r] := by
  induction l with
  | nil => rfl
  | cons x xs ih =>
      have hx : r.id < x.id := h x (List.mem_cons_self _ _)
      simp only [insertDesc, if_neg (Nat.not_le.2 hx), List.cons_append]
      rw [ih]
      intro y hy
      exact h y (List.mem_cons_of_mem _ hy)

/-- On a table whose rows are in strictly increasing id order (the invariant
of an append-only AUTOINCREMENT table), `ORDER BY id DESC` is exactly list
reversal. -/
theorem sortDesc_eq_reverse {rows : List Row}
    (h : rows.Pairwise (fun a b => a.id < b.id)) :
    sortDesc rows = rows.reverse := by
  induction rows with
  | nil => rfl
  | cons x xs ih =>
      rw [List.pairwise_cons] at h
      have hrec : sortDesc xs = xs.reverse := ih h.2
      show insertDesc x (sortDesc xs) = (x :: xs).reverse
      rw [hrec, insertDesc_of_lt, List.reverse_cons]
      intro y hy
      exact h.1 y (List.mem_reverse.1 hy)

theorem sortDesc_length (rows : List Row) :
    (sortDesc rows).length = rows.length := by
  induction rows with
  | nil => rfl
  | cons x xs ih =>
      show (insertDesc x (sortDesc xs)).length = xs.length + 1
      rw [← ih]
      generalize sortDesc xs = l
      induction l with
      | nil => rfl
      | cons y ys ih2 =>
          simp only [insertDesc]
          split
          · simp
          · simp only [List.length_cons] at ih2 ⊢
            omega

/-- `C2`: for every sequence of `save_message` calls and every `limit ≥ 0`,
`get_history(limit)` returns exactly the last `min(limit, total)` inserted
entries, in insertion (ascending-id, oldest-first) order, independently of
the timestamps recorded in the entries. -/
theorem get_history_returns_last_min (entries : List (String × String × Nat))
    (limit : Int) (h : 0 ≤ limit) :
    get_history (mkStore entries) limit =
      (mkStore entries).rows.drop
        ((mkStore entries).rows.length - limit.toNat) ∧
    (get_history (mkStore entries) limit).length =
      min limit.toNat (mkStore entries).rows.length := by
  have hwf := (mkStore_wf entries).1
  have hsort := sortDesc_eq_reverse hwf
  have hmain : get_history (mkStore entries) limit =
      (mkStore entries).rows.drop
        ((mkStore entries).rows.length - limit.toNat) := by
    unfold get_history sqliteLimit
    rw [if_neg (by omega), hsort, ← List.rtake_eq_reverse_take_reverse,
      List.rtake]
  refine ⟨hmain, ?_⟩
  rw [hmain, List.length_drop]
  omega

/-- Witness for `C2` at a concrete store of three rows and `limit = 2`. -/
theorem get_history_returns_last_min_witness :
    get_history (mkStore [("user", "a", 5), ("assistant", "b", 4),
        ("user", "c", 3)]) 2 =
      (mkStore [("user", "a", 5), ("assistant", "b", 4),
        ("user", "c", 3)]).rows.drop
        ((mkStore [("user", "a", 5), ("assistant", "b", 4),
          ("user", "c", 3)]).rows.length - (2 : Int).toNat) ∧
    (get_history (mkStore [("user", "a", 5), ("assistant", "b", 4),
        ("user", "c", 3)]) 2).length =
      min (2 : Int).toNat (mkStore [("user", "a", 5), ("assistant", "b", 4),
        ("user", "c", 3)]).rows.length :=
  get_history_returns_last_min
    [("user", "a", 5), ("assistant", "b", 4), ("user", "c", 3)] 2
    (by decide)

/-- `C3` counterexample: with one stored row, `get_history(-1)` returns the
full table (SQLite treats a negative LIMIT as "no limit"), not the empty
sequence the claim demands; the `/history` endpoint passes it through. -/
theorem get_history_neg_limit_counterexample :
    get_history (mkStore [("user", "a", 0)]) (-1) =
      (mkStore [("user", "a", 0)]).rows ∧
    (mkStore [("user", "a", 0)]).rows ≠ [] ∧
    history_endpoint false (mkStore [("user", "a", 0)]) (-1) =
      .ok (mkStore [("user", "a", 0)]).rows := by
  refine ⟨by decide, by decide, by rfl⟩

/-- `C3` amended: `limit = 0` returns the empty sequence, but a *negative*
`limit` returns the entire table oldest-first (SQLite "no limit"); in both
cases the `/history` endpoint returns it as a success, not an error. -/
theorem get_history_nonpos_limit (entries : List (String × String × Nat))
    (limit : Int) (h : limit ≤ 0) :
    history_endpoint false (mkStore entries) limit =
      .ok (if limit = 0 then [] else (mkStore entries).rows) := by
  have hsort := sortDesc_eq_reverse (mkStore_wf entries).1
  unfold history_endpoint get_history sqliteLimit
  rw [if_neg (by simp)]
  by_cases h0 : limit = 0
  · subst h0
    simp
  · rw [if_pos (by omega), if_neg h0, hsort, List.reverse_reverse]

/-- Witness for `C3` amended at one stored row and `limit = -1`. -/
theorem get_history_nonpos_limit_witness :
    history_endpoint false (mkStore [("user", "a", 0)]) (-1) =
      .ok (if (-1 : Int) = 0 then [] else (mkStore [("user", "a", 0)]).rows) :=
  get_history_nonpos_limit [("user", "a", 0)] (-1) (by decide)

/-! ## The `/chat` handler (`main.py`)

The handler is a straight-line sequence: persist the user message (STEP 1,
mandatory — a failure aborts with a 500), build the context (STEP 2 —
`get_history(limit=10)` then `history[-6:]`, a read failure is swallowed),
call Ollama (STEP 3 — a health-check GET on `/api/tags` and then the POST
to `/api/chat`), persist the reply best-effort (STEP 4), and return
`{response, model}`.  We model the outside world (store I/O failures and
the inference service) as an explicit environment, and record each effect
performed in a trace. -/

/-- A `{role, content}` context entry as sent to `/api/chat`. -/
structure Msg where
  role : String
  content : String
deriving Repr, DecidableEq

/-- Outcome of the health-check `GET /api/tags`. -/
inductive TagsOutcome where
  | connectError
  | timedOut
  | resp (status : Nat)
deriving Repr, DecidableEq

/-- Outcome of the `POST /api/chat`.  For a response, `text` is the raw body
and `json` is the extraction attempt: `none` = body not parseable as JSON,
`some none` = JSON without `message.content`, `some (some c)` = content. -/
inductive ChatOutcome where
  | connectError
  | timedOut
  | resp (status : Nat) (text : String) (json : Option (Option String))
deriving Repr, DecidableEq

/-- The world outside the handler: whether each store operation raises, and
how the inference service answers. -/
structure Env where
  saveUserFails : Bool
  historyFails : Bool
  tags : TagsOutcome
  chatResp : ChatOutcome
  saveAssistantFails : Bool
deriving Repr, DecidableEq

/-- One observable effect of a handler run. -/
inductive Ev where
  | dbWrite (role content : String) (ok : Bool)
  | dbRead (ok : Bool)
  | netTags
  | netChat (messages : List Msg)
deriving Repr, DecidableEq

/-- Result of the handler: the JSON reply `{response, model}` or an
`HTTPException(status, detail)`. -/
inductive ChatResult where
  | ok (response model : String)
  | err (status : Nat) (detail : String)
deriving Repr, DecidableEq

/-- `error_text.lower()` contains `"not found"` (the model-missing check on
a non-200 Ollama reply). -/
def containsNotFound (s : String) : Bool :=
  1 < (s.toLower.splitOn "not found").length

/-- The `/chat` handler (`main.py`, `chat`).  Arguments: the configured
model identifier, the environment, the two timestamps the storage engine
would assign to the two inserts, the current store, and the request body
(`message`, `use_history`).  Returns the HTTP result, the final store, and
the trace of effects in order. -/
def chat (model : String) (env : Env) (ts1 ts2 : Nat) (store : Store)
    (message : String) (use_history : Bool) :
    ChatResult × Store × List Ev :=
  -- STEP 1: save user message; on failure abort with 500.
  if env.saveUserFails then
    (.err 500 "Database error", store, [.dbWrite "user" message false])
  else
    let s1 := save_message "user" message ts1 store
    -- STEP 2: build context.
    let readEvs : List Ev :=
      if use_history then [.dbRead (!env.historyFails)] else []
    let history := get_history s1 10
    let prior : List Msg :=
      if use_history then
        if env.historyFails then []
        else (history.drop (history.length - 6)).map
          (fun r => ⟨r.role, r.content⟩)
      else []
    let messages := prior ++ [⟨"user", message⟩]
    let ev0 : List Ev := .dbWrite "user" message true :: readEvs
    -- STEP 3: health-check GET /api/tags, then POST /api/chat.
    match env.tags with
    | .connectError =>
        (.err 503 "Ollama is not running. Start with: sudo systemctl start ollama",
          s1, ev0 ++ [.netTags])
    | .timedOut =>
        (.err 504 "Request timed out. Try a shorter message or smaller model.",
          s1, ev0 ++ [.netTags])
    | .resp tstatus =>
        if tstatus ≠ 200 then
          (.err 503 "Ollama health check failed", s1, ev0 ++ [.netTags])
        else
          match env.chatResp with
          | .connectError =>
              (.err 503 "Cannot connect to Ollama. Is it running?",
                s1, ev0 ++ [.netTags, .netChat messages])
          | .timedOut =>
              (.err 504 "Request timed out. Try a shorter message or smaller model.",
                s1, ev0 ++ [.netTags, .netChat messages])
          | .resp cstatus text json =>
              let evN := ev0 ++ [.netTags, .netChat messages]
              if cstatus ≠ 200 then
                if containsNotFound text then
                  (.err 503 "Model not found", s1, evN)
                else
                  (.err 500 "Ollama returned error", s1, evN)
              else
                match json with
                | none => (.err 500 "Ollama error", s1, evN)
                | some none =>
                    (.err 500 "Invalid response format from Ollama", s1, evN)
                | some (some content) =>
                    -- STEP 4: best-effort save of the assistant reply.
                    if env.saveAssistantFails then
                      (.ok content model, s1,
                        evN ++ [.dbWrite "assistant" content false])
                    else
                      (.ok content model,
                        save_message "assistant" content ts2 s1,
                        evN ++ [.dbWrite "assistant" content true])

/-- Is this trace event a network request to the inference service? -/
def isNetEv : Ev → Bool
  | .netTags => true
  | .netChat _ => true
  | _ => false

/-- Is this trace event the chat POST to the inference service? -/
def isChatPost : Ev → Bool
  | .netChat _ => true
  | _ => false

theorem get_history_length (s : Store) (limit : Int) (h : 0 ≤ limit) :
    (get_history s limit).length = min limit.toNat s.rows.length := by
  unfold get_history sqliteLimit
  rw [if_neg (by omega)]
  rw [List.length_reverse, List.length_take, sortDesc_length]

/-- `C4`: on an empty store, `converse("hello", true)` with the inference
service answering `{message:{content:"hi"}}` returns `{response:"hi",
model:<configured>}` and leaves exactly the two rows `(user,"hello")` then
`(assistant,"hi")` in sequence-id order. -/
theorem chat_empty_store_success (model : String) (ts1 ts2 : Nat) :
    (chat model ⟨false, false, .resp 200, .resp 200 "" (some (some "hi")),
        false⟩ ts1 ts2 emptyStore "hello" true).1 = .ok "hi" model ∧
    (chat model ⟨false, false, .resp 200, .resp 200 "" (some (some "hi")),
        false⟩ ts1 ts2 emptyStore "hello" true).2.1.rows =
      [⟨1, "user", "hello", ts1⟩, ⟨2, "assistant", "hi", ts2⟩] :=
  ⟨rfl, rfl⟩

/-- `C5`: if persisting the user message fails, the call aborts with a 500
storage error, the store is unchanged, and no request is sent to the
inference service. -/
theorem chat_user_persist_failure (model : String) (env : Env)
    (ts1 ts2 : Nat) (store : Store) (message : String) (use_history : Bool)
    (h : env.saveUserFails = true) :
    (chat model env ts1 ts2 store message use_history).1 =
      .err 500 "Database error" ∧
    (chat model env ts1 ts2 store message use_history).2.1 = store ∧
    (chat model env ts1 ts2 store message use_history).2.2.countP isNetEv
      = 0 := by
  simp [chat, h, isNetEv]

/-- Witness for `C5` at a concrete failing environment. -/
theorem chat_user_persist_failure_witness :
    (chat "m" ⟨true, false, .resp 200, .resp 200 "" (some (some "hi")),
        false⟩ 0 0 emptyStore "x" true).1 = .err 500 "Database error" ∧
    (chat "m" ⟨true, false, .resp 200, .resp 200 "" (some (some "hi")),
        false⟩ 0 0 emptyStore "x" true).2.1 = emptyStore ∧
    (chat "m" ⟨true, false, .resp 200, .resp 200 "" (some (some "hi")),
        false⟩ 0 0 emptyStore "x" true).2.2.countP isNetEv = 0 :=
  chat_user_persist_failure "m"
    ⟨true, false, .resp 200, .resp 200 "" (some (some "hi")), false⟩
    0 0 emptyStore "x" true rfl

/-- `C6`: when the call fails with 503 (service unreachable / model
missing) or 504 (timeout), the user message persisted in step 1 is still
in the store — the final store is exactly the input store plus that one
row — and no assistant message was appended. -/
theorem chat_503_504_keeps_user_message (model : String) (env : Env)
    (ts1 ts2 : Nat) (store : Store) (message : String) (use_history : Bool)
    (st : Nat) (d : String)
    (h : (chat model env ts1 ts2 store message use_history).1 = .err st d)
    (hst : st = 503 ∨ st = 504) :
    (chat model env ts1 ts2 store message use_history).2.1 =
      save_message "user" message ts1 store := by
  rcases env with ⟨su, hf, tg, cr, sa⟩
  cases su
  case true =>
    simp [chat] at h
    omega
  case false =>
    rcases tg with _ | _ | tstatus
    · rfl
    · rfl
    · by_cases ht : tstatus = 200
      · subst ht
        rcases cr with _ | _ | ⟨cstatus, text, json⟩
        · simp [chat]
        · simp [chat]
        · by_cases hc : cstatus = 200
          · subst hc
            rcases json with _ | json'
            · simp [chat]
            · rcases json' with _ | content
              · simp [chat]
              · cases sa <;> simp [chat] at h
          · simp [chat, hc]
            split <;> rfl
      · simp [chat, ht]
  -- the `rfl` branches: the `.connectError`/`.timedOut` results carry `s1`

/-- Witness for `C6` at a connection-refused environment. -/
theorem chat_503_504_keeps_user_message_witness :
    (chat "m" ⟨false, false, .connectError,
        .resp 200 "" (some (some "hi")), false⟩ 0 0 emptyStore "x"
        true).2.1 = save_message "user" "x" 0 emptyStore :=
  chat_503_504_keeps_user_message "m"
    ⟨false, false, .connectError, .resp 200 "" (some (some "hi")), false⟩
    0 0 emptyStore "x" true 503
    "Ollama is not running. Start with: sudo systemctl start ollama"
    rfl (Or.inl rfl)

/-- `C7`: once `assistant_text` is extracted, a failure of the best-effort
assistant persistence is swallowed — the caller still gets
`{response: assistant_text, model: <configured>}` (and the store keeps
only the user row from step 1). -/
theorem chat_assistant_persist_failure_swallowed (model : String)
    (env : Env) (ts1 ts2 : Nat) (store : Store) (message : String)
    (use_history : Bool) (text content : String)
    (h1 : env.saveUserFails = false) (h2 : env.tags = .resp 200)
    (h3 : env.chatResp = .resp 200 text (some (some content)))
    (h4 : env.saveAssistantFails = true) :
    (chat model env ts1 ts2 store message use_history).1 =
      .ok content model ∧
    (chat model env ts1 ts2 store message use_history).2.1 =
      save_message "user" message ts1 store := by
  rcases env with ⟨su, hf, tg, cr, sa⟩
  simp only at h1 h2 h3 h4
  subst h1 h2 h3 h4
  simp [chat]

/-- Witness for `C7` at a concrete environment. -/
theorem chat_assistant_persist_failure_swallowed_witness :
    (chat "m" ⟨false, false, .resp 200, .resp 200 "t" (some (some "hi")),
        true⟩ 0 0 emptyStore "x" false).1 = .ok "hi" "m" ∧
    (chat "m" ⟨false, false, .resp 200, .resp 200 "t" (some (some "hi")),
        true⟩ 0 0 emptyStore "x" false).2.1 =
      save_message "user" "x" 0 emptyStore :=
  chat_assistant_persist_failure_swallowed "m"
    ⟨false, false, .resp 200, .resp 200 "t" (some (some "hi")), true⟩
    0 0 emptyStore "x" false "t" "hi" rfl rfl rfl rfl

/-- Any chat POST recorded in a handler trace carries exactly the context
built in STEP 2: the windowed prior history (empty when `use_history` is
false or the read failed) with the current user message appended. -/
theorem netChat_context (model : String) (env : Env) (ts1 ts2 : Nat)
    (store : Store) (message : String) (use_history : Bool)
    (msgs : List Msg)
    (h : Ev.netChat msgs ∈
      (chat model env ts1 ts2 store message use_history).2.2) :
    msgs = (if use_history then
        (if env.historyFails then []
         else ((get_history (save_message "user" message ts1 store) 10).drop
            ((get_history (save_message "user" message ts1 store) 10).length
              - 6)).map (fun r => Msg.mk r.role r.content))
      else []) ++ [Msg.mk "user" message] := by
  rcases env with ⟨su, hf, tg, cr, sa⟩
  cases su
  case true => simp [chat] at h
  case false =>
    cases use_history <;> cases hf <;>
    ( rcases tg with _ | _ | tstatus
      · simp [chat] at h
      · simp [chat] at h
      · by_cases ht : tstatus = 200
        · subst ht
          rcases cr with _ | _ | ⟨cstatus, text, json⟩
          · simp [chat] at h
            simp [h]
          · simp [chat] at h
            simp [h]
          · by_cases hc : cstatus = 200
            · subst hc
              rcases json with _ | json'
              · simp [chat] at h
                simp [h]
              · rcases json' with _ | content
                · simp [chat] at h
                  simp [h]
                · cases sa <;>
                  ( simp [chat] at h
                    simp [h] )
            · by_cases hnf : containsNotFound text = true <;>
              ( simp [chat, hc, hnf] at h
                simp [h] )
        · simp [chat, ht] at h )

/-- `C9`: with `use_history=false`, whatever the store holds, the context
sent to the inference service is exactly the single current user entry. -/
theorem chat_context_no_history (model : String) (env : Env)
    (ts1 ts2 : Nat) (store : Store) (message : String) (msgs : List Msg)
    (h : Ev.netChat msgs ∈
      (chat model env ts1 ts2 store message false).2.2) :
    msgs = [Msg.mk "user" message] := by
  have hm := netChat_context model env ts1 ts2 store message false msgs h
  simpa using hm

/-- Witness for `C9` at a concrete all-success environment. -/
theorem chat_context_no_history_witness :
    Ev.netChat [Msg.mk "user" "x"] ∈
      (chat "m" ⟨false, false, .resp 200, .resp 200 "" (some (some "hi")),
        false⟩ 0 0 (mkStore [("user", "a", 0)]) "x" false).2.2 ∧
    [Msg.mk "user" "x"] = [Msg.mk "user" "x"] :=
  ⟨by decide,
    chat_context_no_history "m"
      ⟨false, false, .resp 200, .resp 200 "" (some (some "hi")), false⟩
      0 0 (mkStore [("user", "a", 0)]) "x" [Msg.mk "user" "x"] (by decide)⟩

/-- `C10`: every context actually sent to the inference service has between
1 and 7 entries and ends with the current user message, whatever the store,
the flag and the environment. -/
theorem chat_context_invariant (model : String) (env : Env) (ts1 ts2 : Nat)
    (store : Store) (message : String) (use_history : Bool)
    (msgs : List Msg)
    (h : Ev.netChat msgs ∈
      (chat model env ts1 ts2 store message use_history).2.2) :
    1 ≤ msgs.length ∧ msgs.length ≤ 7 ∧
    msgs.getLast? = some (Msg.mk "user" message) := by
  have hm := netChat_context model env ts1 ts2 store message use_history
    msgs h
  subst hm
  refine ⟨by simp, ?_, by rw [List.getLast?_concat]⟩
  rw [List.length_append]
  have hp : (if use_history then
      (if env.historyFails then []
       else ((get_history (save_message "user" message ts1 store) 10).drop
          ((get_history (save_message "user" message ts1 store) 10).length
            - 6)).map (fun r => Msg.mk r.role r.content))
    else []).length ≤ 6 := by
    split
    · split
      · simp
      · rw [List.length_map, List.length_drop]
        omega
    · simp
  simp only [List.length_singleton]
  omega

/-- Witness for `C10` at a concrete all-success environment. -/
theorem chat_context_invariant_witness :
    Ev.netChat [Msg.mk "user" "x"] ∈
      (chat "m" ⟨false, false, .resp 200, .resp 200 "" (some (some "hi")),
        false⟩ 0 0 emptyStore "x" false).2.2 ∧
    (1 ≤ ([Msg.mk "user" "x"] : List Msg).length ∧
      ([Msg.mk "user" "x"] : List Msg).length ≤ 7 ∧
      ([Msg.mk "user" "x"] : List Msg).getLast? =
        some (Msg.mk "user" "x")) :=
  ⟨by decide,
    chat_context_invariant "m"
      ⟨false, false, .resp 200, .resp 200 "" (some (some "hi")), false⟩
      0 0 emptyStore "x" false [Msg.mk "user" "x"] (by decide)⟩

/-- `C1`: with `use_history=true`, a working history read and at least 10
prior stored messages, the context sent to the inference service is exactly
7 entries: the 6 most recent of the 10 rows fetched by
`get_history(10)` — fetched after the user message was persisted, in
oldest-first order — followed by the current user message (re-added
without deduplication against its persisted copy). -/
theorem chat_context_with_full_history (model : String) (env : Env)
    (ts1 ts2 : Nat) (store : Store) (message : String) (msgs : List Msg)
    (h1 : env.historyFails = false) (h2 : 10 ≤ store.rows.length)
    (h : Ev.netChat msgs ∈
      (chat model env ts1 ts2 store message true).2.2) :
    (get_history (save_message "user" message ts1 store) 10).length = 10 ∧
    msgs = ((get_history (save_message "user" message ts1 store) 10).drop
        ((get_history (save_message "user" message ts1 store) 10).length
          - 6)).map (fun r => Msg.mk r.role r.content) ++
      [Msg.mk "user" message] ∧
    msgs.length = 7 := by
  have hlen : (get_history (save_message "user" message ts1 store) 10).length
      = 10 := by
    rw [get_history_length _ _ (by norm_num)]
    simp [save_message]
    omega
  have hm := netChat_context model env ts1 ts2 store message true msgs h
  rw [if_pos rfl, h1, if_neg (by simp)] at hm
  refine ⟨hlen, hm, ?_⟩
  subst hm
  rw [List.length_append, List.length_map, List.length_drop, hlen]
  simp

/-- Witness for `C1` at a store of 10 prior user messages. -/
theorem chat_context_with_full_history_witness :
    (⟨false, false, .resp 200, .resp 200 "" (some (some "hi")),
        false⟩ : Env).historyFails = false ∧
    10 ≤ (mkStore [("user", "h1", 0), ("user", "h2", 0), ("user", "h3", 0),
      ("user", "h4", 0), ("user", "h5", 0), ("user", "h6", 0),
      ("user", "h7", 0), ("user", "h8", 0), ("user", "h9", 0),
      ("user", "h10", 0)]).rows.length ∧
    Ev.netChat [Msg.mk "user" "h6", Msg.mk "user" "h7", Msg.mk "user" "h8",
        Msg.mk "user" "h9", Msg.mk "user" "h10", Msg.mk "user" "x",
        Msg.mk "user" "x"] ∈
      (chat "m" ⟨false, false, .resp 200, .resp 200 "" (some (some "hi")),
        false⟩ 0 0 (mkStore [("user", "h1", 0), ("user", "h2", 0),
          ("user", "h3", 0), ("user", "h4", 0), ("user", "h5", 0),
          ("user", "h6", 0), ("user", "h7", 0), ("user", "h8", 0),
          ("user", "h9", 0), ("user", "h10", 0)]) "x" true).2.2 ∧
    ([Msg.mk "user" "h6", Msg.mk "user" "h7", Msg.mk "user" "h8",
      Msg.mk "user" "h9", Msg.mk "user" "h10", Msg.mk "user" "x",
      Msg.mk "user" "x"] : List Msg).length = 7 :=
  ⟨rfl, by decide, by decide,
    (chat_context_with_full_history "m"
      ⟨false, false, .resp 200, .resp 200 "" (some (some "hi")), false⟩
      0 0 (mkStore [("user", "h1", 0), ("user", "h2", 0), ("user", "h3", 0),
        ("user", "h4", 0), ("user", "h5", 0), ("user", "h6", 0),
        ("user", "h7", 0), ("user", "h8", 0), ("user", "h9", 0),
        ("user", "h10", 0)]) "x"
      [Msg.mk "user" "h6", Msg.mk "user" "h7", Msg.mk "user" "h8",
        Msg.mk "user" "h9", Msg.mk "user" "h10", Msg.mk "user" "x",
        Msg.mk "user" "x"]
      rfl (by decide) (by decide)).2.2⟩

/-- `C8` counterexample: a fully successful `chat` call performs *two*
network requests to the inference service — the health-check GET on
`/api/tags` and the POST to `/api/chat` — not exactly one. -/
theorem chat_network_calls_counterexample :
    (chat "m" ⟨false, false, .resp 200, .resp 200 "" (some (some "hi")),
        false⟩ 0 0 emptyStore "x" false).2.2.countP isNetEv = 2 ∧
    (chat "m" ⟨false, false, .resp 200, .resp 200 "" (some (some "hi")),
        false⟩ 0 0 emptyStore "x" false).2.2.countP isNetEv ≠ 1 := by
  refine ⟨by decide, by decide⟩

/-- `C8` amended: every `chat` call sends at most two network requests to
the inference service — one health-check GET on `/api/tags` and at most
one POST to `/api/chat` — with at most one chat request per call and no
retries. -/
theorem chat_at_most_two_network_calls (model : String) (env : Env)
    (ts1 ts2 : Nat) (store : Store) (message : String)
    (use_history : Bool) :
    (chat model env ts1 ts2 store message use_history).2.2.countP isNetEv
      ≤ 2 ∧
    (chat model env ts1 ts2 store message use_history).2.2.countP isChatPost
      ≤ 1 := by
  rcases env with ⟨su, hf, tg, cr, sa⟩
  cases su
  case true => simp [chat, isNetEv, isChatPost]
  case false =>
    cases use_history <;>
    ( rcases tg with _ | _ | tstatus
      · simp [chat, isNetEv, isChatPost]
      · simp [chat, isNetEv, isChatPost]
      · by_cases ht : tstatus = 200
        · subst ht
          rcases cr with _ | _ | ⟨cstatus, text, json⟩
          · simp [chat, isNetEv, isChatPost]
          · simp [chat, isNetEv, isChatPost]
          · by_cases hc : cstatus = 200
            · subst hc
              rcases json with _ | json'
              · simp [chat, isNetEv, isChatPost]
              · rcases json' with _ | content
                · simp [chat, isNetEv, isChatPost]
                · cases sa <;> simp [chat, isNetEv, isChatPost]
            · by_cases hnf : containsNotFound text = true <;>
                simp [chat, hc, hnf, isNetEv, isChatPost]
        · simp [chat, ht, isNetEv, isChatPost] )

end ChatRelay
